import Mathlib

/-!
Verification development for the Tunisian-data-collection repository.

The repository collects social-media comments (YouTube, Twitter, Reddit)
into a common record shape (`src/collectors/*.py`), and merges collected
batches together with externally hosted labeled corpora into one
deduplicated training table (`src/merge_datasets.py`,
`src/merge_collected_data.py`).  Credentials are validated by
`src/utils/config.py` before the CLI in `src/collect.py` builds any
collector.

This file gives a shallow embedding of the data model and the operations
of that code, and proves (or refutes) the specified properties about it.
Python strings are modelled as `List Char`; machine input that the code
reads from the network or the filesystem (API pages, dataset items,
batch-file lines, environment variables) is passed to the embedded
functions as explicit arguments.
-/

namespace TDC

/-! ### Python string primitives

`pyStrip` models Python `str.strip()` (drop leading and trailing
whitespace) and `pyLower` models `str.lower()` (per-character lowering;
the label vocabularies involved are pure ASCII, where `Char.toLower`
agrees with Python).
-/

def pyStrip (s : List Char) : List Char :=
  ((s.dropWhile Char.isWhitespace).reverse.dropWhile Char.isWhitespace).reverse

def pyLower (s : List Char) : List Char :=
  s.map Char.toLower

theorem char_toNat_inj {c d : Char} (h : c.toNat = d.toNat) : c = d := by
  rw [← Char.ofNat_toNat c, h, Char.ofNat_toNat]

theorem toNat_toLower_range (c : Char) :
    (Char.toLower c).toNat = c.toNat ∨
    (65 ≤ c.toNat ∧ c.toNat ≤ 90 ∧ (Char.toLower c).toNat = c.toNat + 32) := by
  unfold Char.toLower
  by_cases h : c.toNat ≥ 65 ∧ c.toNat ≤ 90
  · right
    refine ⟨h.1, h.2, ?_⟩
    rw [if_pos h]
    have hv : (c.toNat + 32).isValidChar := Or.inl (by omega)
    rw [Char.ofNat, dif_pos hv]
    rfl
  · left; rw [if_neg h]

theorem ws_iff_toNat (c : Char) :
    Char.isWhitespace c = true ↔
      (c.toNat = 32 ∨ c.toNat = 9 ∨ c.toNat = 13 ∨ c.toNat = 10) := by
  simp only [Char.isWhitespace, Bool.or_eq_true, decide_eq_true_eq]
  constructor
  · rintro (((h | h) | h) | h) <;> subst h <;> simp [Char.toNat]
  · rintro (h | h | h | h) <;>
      [ (left; left; left); (left; left; right); (left; right); right ] <;>
      exact char_toNat_inj (by rw [h]; rfl)

theorem isWhitespace_toLower (c : Char) :
    Char.isWhitespace (Char.toLower c) = Char.isWhitespace c := by
  rcases toNat_toLower_range c with h | ⟨h1, h2, h3⟩
  · rw [char_toNat_inj h]
  · have hws : Char.isWhitespace c = false := by
      rw [Bool.eq_false_iff]
      intro hc
      rcases (ws_iff_toNat c).mp hc with h | h | h | h <;> omega
    have hws2 : Char.isWhitespace (Char.toLower c) = false := by
      rw [Bool.eq_false_iff]
      intro hc
      rcases (ws_iff_toNat _).mp hc with h | h | h | h <;> omega
    rw [hws, hws2]

theorem head_dropWhile_false {α : Type} (p : α → Bool) :
    ∀ (l : List α) (a : α) (t : List α), l.dropWhile p = a :: t → p a = false := by
  intro l
  induction l with
  | nil => intro a t h; simp [List.dropWhile] at h
  | cons x xs ih =>
    intro a t h
    by_cases hx : p x
    · rw [List.dropWhile_cons, if_pos hx] at h
      exact ih a t h
    · rw [List.dropWhile_cons, if_neg hx] at h
      cases h
      exact Bool.eq_false_iff.mpr hx

theorem dropWhile_dropWhile {α : Type} (p : α → Bool) (l : List α) :
    (l.dropWhile p).dropWhile p = l.dropWhile p := by
  induction l with
  | nil => rfl
  | cons a t ih =>
    by_cases h : p a
    · rw [List.dropWhile_cons, if_pos h, ih]
    · rw [List.dropWhile_cons, if_neg h, List.dropWhile_cons, if_neg h]

theorem pyStrip_idem (s : List Char) : pyStrip (pyStrip s) = pyStrip s := by
  set p := Char.isWhitespace with hp
  set t := s.dropWhile p with ht
  set u' := t.reverse.dropWhile p with hu'
  have h0 : t.reverse = t.reverse.takeWhile p ++ t.reverse.dropWhile p :=
    (List.takeWhile_append_dropWhile (p := p) (l := t.reverse)).symm
  have hsplit : t = u'.reverse ++ (t.reverse.takeWhile p).reverse := by
    conv_lhs => rw [← t.reverse_reverse, h0]
    rw [List.reverse_append, hu']
  have hclean : u'.reverse.dropWhile p = u'.reverse := by
    cases hcu : u'.reverse with
    | nil => simp
    | cons a u0 =>
      have hta : t = a :: (u0 ++ (t.reverse.takeWhile p).reverse) := by
        conv_lhs => rw [hsplit, hcu]
        simp
      have hpa : p a = false := head_dropWhile_false p s a _ (by rw [← ht, ← hta])
      rw [List.dropWhile_cons, if_neg (by simp [hpa])]
  show ((u'.reverse.dropWhile p).reverse.dropWhile p).reverse = u'.reverse
  rw [hclean, u'.reverse_reverse, dropWhile_dropWhile]

theorem dropWhile_map_toLower (l : List Char) :
    (l.map Char.toLower).dropWhile Char.isWhitespace =
      (l.dropWhile Char.isWhitespace).map Char.toLower := by
  induction l with
  | nil => rfl
  | cons a t ih =>
    rw [List.map_cons, List.dropWhile_cons, List.dropWhile_cons, isWhitespace_toLower]
    by_cases h : Char.isWhitespace a
    · rw [if_pos h, if_pos h, ih]
    · rw [if_neg h, if_neg h, List.map_cons]

theorem pyStrip_pyLower (s : List Char) : pyStrip (pyLower s) = pyLower (pyStrip s) := by
  unfold pyStrip pyLower
  rw [dropWhile_map_toLower, ← List.map_reverse, dropWhile_map_toLower, ← List.map_reverse]

/-! ### Label mappings (src/merge_datasets.py)

Each origin of the Merge Engine owns a Python dict mapping its native
label vocabulary into the shared 3-class scheme \x7b0,1,2\x7d; a miss
falls back to `dict.get` default 0.  The Excel and ArSAS lookups first
normalise the key with `str(x).strip().lower()`; the TSAC lookup uses
the raw label value unchanged (`label_mapping.get(label, 0)` on keys
"Positive"/"Negative"/"Neutral").
-/

def excelLabelMapping : List (List Char × Nat) :=
  [("anger".toList, 2), ("disgust".toList, 2), ("fear".toList, 2),
   ("pessimism".toList, 2), ("sadness".toList, 2),
   ("happiness".toList, 1), ("optimism".toList, 1),
   ("anticipation".toList, 0), ("confusion".toList, 0),
   ("neutral".toList, 0), ("surprise".toList, 0)]

/-- Lookup `label_mapping.get(str(orig).strip().lower(), 0)` of
`process_excel_data`. -/
def excelMapLabel (orig : List Char) : Nat :=
  (excelLabelMapping.lookup (pyLower (pyStrip orig))).getD 0

def arsasLabelMapping : List (List Char × Nat) :=
  [("positive".toList, 1), ("pos".toList, 1),
   ("negative".toList, 2), ("neg".toList, 2),
   ("neutral".toList, 0), ("mixed".toList, 0)]

/-- Lookup `label_mapping.get(raw_label_str, 0)` of `process_arsas_dataset`,
where `raw_label_str = str(raw_label).strip().lower()`. -/
def arsasMapLabel (raw : List Char) : Nat :=
  (arsasLabelMapping.lookup (pyLower (pyStrip raw))).getD 0

def tsacLabelMapping : List (List Char × Nat) :=
  [("Positive".toList, 1), ("Negative".toList, 2), ("Neutral".toList, 0)]

/-- Lookup `label_mapping.get(label, 0)` of `process_tsac_dataset` — the raw
label value is looked up with no normalisation. -/
def tsacMapLabel (label : List Char) : Nat :=
  (tsacLabelMapping.lookup label).getD 0

/-! ### Row types of the merge stage

`PreRow` is the row shape each origin processor emits (a pandas row
whose `label` cell may be NaN, modelled as `none`); `Row` is the shape
after `fillna(0).astype(int)`.
-/

structure PreRow where
  source : List Char
  source_id : Option (List Char)
  text : List Char
  label : Option Nat
deriving DecidableEq, Repr

structure Row where
  source : List Char
  source_id : Option (List Char)
  text : List Char
  label : Nat
deriving DecidableEq, Repr

def fillLabel (r : PreRow) : Row :=
  ⟨r.source, r.source_id, r.text, r.label.getD 0⟩

/-! ### Origin processors

Each loader from the outside world (pandas `read_excel`,
`load_dataset`, the batch-file directory walk) is modelled by passing
its outcome in: `Except Unit items` for loads that can raise, and
`Option` for the directory that may not exist.  Item fields that the
Python code resolves through `.get` fallback chains are carried in
their resolved form.
-/

structure ExcelRow where
  label : Option (List Char)
  post : Option (List Char)
deriving DecidableEq, Repr

/-- One item of the ArSAS corpus; `tweet_id`, `tweet_text` and
`raw_label` carry the values after the `or`-fallback chains over the
possible field names in `process_arsas_dataset`. -/
structure ArsasItem where
  tweet_id : Option (List Char)
  tweet_text : List Char
  raw_label : List Char
deriving DecidableEq, Repr

/-- One item of the TSAC corpus; `text` and `label` carry the values
after the `.get` fallback chains in `process_tsac_dataset`. -/
structure TsacItem where
  text : List Char
  label : List Char
deriving DecidableEq, Repr

def excelPreRow (r : ExcelRow) : PreRow :=
  ⟨"youtube".toList, none, r.post.getD [], r.label.map excelMapLabel⟩

def process_excel_data (loaded : Except Unit (List ExcelRow)) :
    Except Unit (List PreRow) :=
  loaded.map (List.map excelPreRow)

def arsasPreRow (it : ArsasItem) : PreRow :=
  ⟨"twitter".toList, it.tweet_id, it.tweet_text, some (arsasMapLabel it.raw_label)⟩

def process_arsas_dataset (loaded : Except Unit (List ArsasItem)) :
    Except Unit (List PreRow) :=
  match loaded with
  | .error e => .error e
  | .ok items => .ok (items.map arsasPreRow)

def tsacPreRow (it : TsacItem) : PreRow :=
  ⟨"facebook".toList, none, it.text, some (tsacMapLabel it.label)⟩

def process_tsac_dataset (loaded : Except Unit (List TsacItem)) : List PreRow :=
  match loaded with
  | .error _ => []
  | .ok items => items.map tsacPreRow

/-! ### Dataset Normalizer (process_jsonl_files in src/merge_datasets.py)

A batch file is a list of lines; each line either fails `json.loads`
(`malformed`) or yields a JSON object whose relevant optional fields
are modelled explicitly.
-/

structure JsonObj where
  source : Option (List Char)
  id : Option (List Char)
  source_id : Option (List Char)
  text_raw : Option (List Char)
  text : Option (List Char)
  content : Option (List Char)
deriving DecidableEq, Repr

inductive JsonLine where
  | malformed
  | parsed (o : JsonObj)
deriving DecidableEq, Repr

structure BatchFile where
  name : List Char
  lines : List JsonLine
deriving DecidableEq, Repr

/-- The text extracted from a parsed batch line:
`data.get("text_raw", data.get("text", data.get("content", "")))`. -/
def jsonText (o : JsonObj) : List Char :=
  (o.text_raw.orElse fun _ => o.text.orElse fun _ => o.content).getD []

/-- Row emitted for one parsed batch line, or `none` when the extracted
text fails the `if text and text.strip():` guard. -/
def extractRow (o : JsonObj) : Option PreRow :=
  let txt := jsonText o
  if !txt.isEmpty && !(pyStrip txt).isEmpty then
    some ⟨o.source.getD ("unknown".toList),
          o.id.orElse fun _ => o.source_id,
          pyStrip txt, none⟩
  else
    none

def lineRow : JsonLine → Option PreRow
  | .malformed => none
  | .parsed o => extractRow o

def fileRows (lines : List JsonLine) : List PreRow :=
  lines.filterMap lineRow

/-- Error log of one batch file: `(file name, line number)` for each
malformed line, with lines numbered from 1 as by `enumerate(f, 1)`. -/
def fileLogAux (fname : List Char) (n : Nat) : List JsonLine → List (List Char × Nat)
  | [] => []
  | .malformed :: rest => (fname, n) :: fileLogAux fname (n + 1) rest
  | .parsed _ :: rest => fileLogAux fname (n + 1) rest

def fileLog (f : BatchFile) : List (List Char × Nat) :=
  fileLogAux f.name 1 f.lines

def dirRows (files : List BatchFile) : List PreRow :=
  (files.map fun f => fileRows f.lines).flatten

def dirLog (files : List BatchFile) : List (List Char × Nat) :=
  (files.map fileLog).flatten

def process_jsonl_files (dir : Option (List BatchFile)) : List PreRow :=
  match dir with
  | none => []
  | some files => dirRows files

/-! The sibling normalizer in src/merge_collected_data.py: identical
line handling, but the emitted label is the constant 0 instead of NaN. -/

def mc_extractRow (o : JsonObj) : Option PreRow :=
  let txt := jsonText o
  if !txt.isEmpty && !(pyStrip txt).isEmpty then
    some ⟨o.source.getD ("unknown".toList),
          o.id.orElse fun _ => o.source_id,
          pyStrip txt, some 0⟩
  else
    none

def mc_lineRow : JsonLine → Option PreRow
  | .malformed => none
  | .parsed o => mc_extractRow o

def mc_dirRows (files : List BatchFile) : List PreRow :=
  (files.map fun f => f.lines.filterMap mc_lineRow).flatten

def mc_process_jsonl_files (dir : Option (List BatchFile)) : List PreRow :=
  match dir with
  | none => []
  | some files => mc_dirRows files

/-! ### Merge Engine (merge_all_datasets in src/merge_datasets.py) -/

/-- Embedding of `drop_duplicates` on the text column with the default keep-first policy:
a row is kept iff its (raw) text has not been seen earlier. -/
def dropDupAux (seen : List (List Char)) : List Row → List Row
  | [] => []
  | r :: rest =>
    if r.text ∈ seen then dropDupAux seen rest
    else r :: dropDupAux (r.text :: seen) rest

def dropDuplicatesByText (rows : List Row) : List Row :=
  dropDupAux [] rows

/-- The concatenation step: keep the non-empty per-origin tables in
origin order, concatenate, then `fillna(0)` the label column. -/
def mergeConcatRows (excelDf arsasDf tsacDf jsonlDf : List PreRow) : List Row :=
  ((([excelDf, arsasDf, tsacDf, jsonlDf].filter fun df => !df.isEmpty).flatten).map fillLabel)

/-- The final cleaning filter: strip the text column and keep length > 5. -/
def longEnough (r : Row) : Bool :=
  5 < (pyStrip r.text).length

inductive MergeOutcome where
  | aborted
  | noData
  | written (table : List Row)
deriving DecidableEq, Repr

/-- The whole merge run.  `process_excel_data` and
`process_arsas_dataset` re-raise their load failures and
`merge_all_datasets` does not catch them, so either failure aborts the
run; a TSAC failure or a missing batch directory degrades to an empty
origin table.  `noData` is the early return (no file written) when
every origin table is empty; `written t` is the table passed to the
spreadsheet writer. -/
def merge_all_datasets (excel : Except Unit (List ExcelRow))
    (arsas : Except Unit (List ArsasItem))
    (tsac : Except Unit (List TsacItem))
    (jsonlDir : Option (List BatchFile)) : MergeOutcome :=
  match process_excel_data excel with
  | .error _ => .aborted
  | .ok excelDf =>
    match process_arsas_dataset arsas with
    | .error _ => .aborted
    | .ok arsasDf =>
      let tsacDf := process_tsac_dataset tsac
      let jsonlDf := process_jsonl_files jsonlDir
      if ([excelDf, arsasDf, tsacDf, jsonlDf].filter fun df => !df.isEmpty).isEmpty then
        .noData
      else
        .written ((dropDuplicatesByText
          (mergeConcatRows excelDf arsasDf tsacDf jsonlDf)).filter longEnough)

/-! ### Source adapters (src/collectors)

A collected record keeps the claim-relevant fields of the common
schema; the remaining provenance fields (user, timestamps, counts) do
not affect any stated property and are omitted.  Upstream API content
(comment pages, tweet streams, comment forests) is passed in as
explicit data; authentication outcome is a boolean parameter.
-/

structure CollectedRecord where
  source : List Char
  id : List Char
  text_raw : List Char
deriving DecidableEq, Repr

/-! #### YouTube (src/collectors/youtube_collector.py) -/

structure YComment where
  cid : List Char
  textDisplay : List Char
deriving DecidableEq, Repr

def ycommentRecord (c : YComment) : CollectedRecord :=
  ⟨"youtube".toList, c.cid, c.textDisplay⟩

/-- The pagination loop of `_get_video_comments`: `pages` is the
sequence of `items` arrays the API serves along the continuation-token
chain.  The outer `while total_collected < max_results`, the
`if not response.get("items"): break`, and the inner
`if total_collected >= max_results: break` are reflected by the guard,
the empty-page stop, and the `take (maxResults - acc.length)`. -/
def get_video_comments_loop (maxResults : Nat) :
    List (List YComment) → List CollectedRecord → List CollectedRecord
  | [], acc => acc
  | page :: rest, acc =>
    if maxResults ≤ acc.length then acc
    else if page.isEmpty then acc
    else get_video_comments_loop maxResults rest
      (acc ++ (page.take (maxResults - acc.length)).map ycommentRecord)

def get_video_comments (pages : List (List YComment)) (maxResults : Nat) :
    List CollectedRecord :=
  get_video_comments_loop maxResults pages []

def youtube_collect_by_id (authOk : Bool) (pages : List (List YComment))
    (limit : Nat) : List CollectedRecord :=
  if !authOk then [] else get_video_comments pages limit

/-- The fan-out loop of `_search_and_collect`: for each discovered
video (given as its page sequence), stop once the accumulated comments
reach `limit`, else fetch up to `per` comments from it. -/
def search_collect_loop (per limit : Nat) :
    List (List (List YComment)) → List CollectedRecord → List CollectedRecord
  | [], acc => acc
  | v :: rest, acc =>
    if limit ≤ acc.length then acc
    else search_collect_loop per limit rest (acc ++ get_video_comments v per)

/-- Embedding of `_search_and_collect`: `videos` is the discovered video list (each
as its comment page sequence); the per-video budget is
`max(1, limit // len(video_ids))`. -/
def search_and_collect (videos : List (List (List YComment))) (limit : Nat) :
    List CollectedRecord :=
  if videos.isEmpty then []
  else search_collect_loop (max 1 (limit / videos.length)) limit videos []

def youtube_collect_by_keywords (authOk : Bool)
    (videos : List (List (List YComment))) (limit : Nat) : List CollectedRecord :=
  if !authOk then [] else search_and_collect videos limit

/-! #### Twitter (src/collectors/twitter_collector.py) -/

structure Tweet where
  id_str : List Char
  full_text : List Char
  in_reply_to_status_id_str : Option (List Char)
  in_reply_to_user_id_str : Option (List Char)
deriving DecidableEq, Repr

def tweetRecord (t : Tweet) : CollectedRecord :=
  ⟨"twitter".toList, t.id_str, t.full_text⟩

/-- Embedding of `_get_tweet_replies`: when fetching the original tweet fails, the
exception handler returns the empty accumulation; otherwise the
conversation search stream is consumed through
`Cursor(...).items(max_replies)` and filtered by the reply check
against the original tweet id and its author id. -/
def get_tweet_replies (orig : Option (List Char × List Char))
    (searchStream : List Tweet) (tweet_id : List Char) (maxReplies : Nat) :
    List CollectedRecord :=
  match orig with
  | none => []
  | some (_, origUserId) =>
    ((searchStream.take maxReplies).filter fun t =>
      t.in_reply_to_status_id_str == some tweet_id
        || t.in_reply_to_user_id_str == some origUserId).map tweetRecord

/-- Embedding of `_get_user_tweets`: the timeline stream consumed through
`Cursor(...).items(max_tweets)`. -/
def get_user_tweets (timeline : List Tweet) (maxTweets : Nat) :
    List CollectedRecord :=
  (timeline.take maxTweets).map tweetRecord

inductive TwitterIdType where
  | username
  | tweet_id
  | other
deriving DecidableEq, Repr

/-- Embedding of `TwitterCollector.collect_by_id`: dispatch on `id_type`, empty
result on failed authentication or unknown type.  For the `username`
branch `stream` is the user timeline; for the `tweet_id` branch it is
the conversation search stream.  -/
def twitter_collect_by_id (authOk : Bool) (idType : TwitterIdType)
    (orig : Option (List Char × List Char)) (stream : List Tweet)
    (source_id : List Char) (limit : Nat) : List CollectedRecord :=
  if !authOk then []
  else match idType with
  | .username => get_user_tweets stream limit
  | .tweet_id => get_tweet_replies orig stream source_id limit
  | .other => []

/-- Embedding of `_search_tweets_by_keywords`: one search per keyword, each consumed
through `Cursor(...).items(max_tweets)` — the `limit` budget is NOT
divided among the keywords. -/
def search_tweets_by_keywords (perKeyword : List (List Tweet))
    (maxTweets : Nat) : List CollectedRecord :=
  (perKeyword.map fun ts => (ts.take maxTweets).map tweetRecord).flatten

def twitter_collect_by_keywords (authOk : Bool)
    (perKeyword : List (List Tweet)) (limit : Nat) : List CollectedRecord :=
  if !authOk then [] else search_tweets_by_keywords perKeyword limit

/-! #### Reddit (src/collectors/reddit_collector.py) -/

structure RComment where
  cid : List Char
  body : List Char
deriving DecidableEq, Repr

def rcommentRecord (c : RComment) : CollectedRecord :=
  ⟨"reddit".toList, c.cid, c.body⟩

/-- Embedding of `RedditCollector.collect_by_id`: empty on failed authentication or
on a removed/restricted submission; otherwise the flattened comment
forest is truncated by `[:limit]` and comments whose body is a literal
deleted/removed sentinel are filtered out. -/
def reddit_collect_by_id (authOk : Bool) (removed : Bool)
    (comments : List RComment) (limit : Nat) : List CollectedRecord :=
  if !authOk then []
  else if removed then []
  else ((comments.take limit).filter fun c =>
    !(c.body == "[deleted]".toList) && !(c.body == "[removed]".toList)).map rcommentRecord

/-- Embedding of `_get_post_comments`: the flattened comment forest of
one post, truncated by `[:max_comments]`, with literal deleted/removed
sentinel bodies filtered out. -/
def get_post_comments (forest : List RComment) (maxComments : Nat) :
    List CollectedRecord :=
  ((forest.take maxComments).filter fun c =>
    !(c.body == "[deleted]".toList) && !(c.body == "[removed]".toList)).map rcommentRecord

/-- The fan-out loop of the Reddit `_search_and_collect`: for each
discovered post (given as its flattened comment forest), stop once the
accumulated comments reach `limit`, else fetch up to `per` comments
from it. -/
def reddit_search_collect_loop (per limit : Nat) :
    List (List RComment) → List CollectedRecord → List CollectedRecord
  | [], acc => acc
  | post :: rest, acc =>
    if limit ≤ acc.length then acc
    else reddit_search_collect_loop per limit rest (acc ++ get_post_comments post per)

/-- Embedding of the Reddit `_search_and_collect`: `posts` is the
discovered post list (each as its comment forest; the discovery step
caps it at `limit // 10` candidates, which does not affect the stated
bounds); the per-post budget is
`max(1, limit // len(posts)) if posts else 0`. -/
def reddit_search_and_collect (posts : List (List RComment)) (limit : Nat) :
    List CollectedRecord :=
  reddit_search_collect_loop
    (if posts.isEmpty then 0 else max 1 (limit / posts.length)) limit posts []

def reddit_collect_by_keywords (authOk : Bool) (posts : List (List RComment))
    (limit : Nat) : List CollectedRecord :=
  if !authOk then [] else reddit_search_and_collect posts limit

/-! ### Credential validation (src/utils/config.py, src/collect.py) -/

structure Env where
  YOUTUBE_API_KEY : Option String
  TWITTER_API_KEY : Option String
  TWITTER_API_SECRET : Option String
  TWITTER_ACCESS_TOKEN : Option String
  TWITTER_ACCESS_SECRET : Option String
  REDDIT_CLIENT_ID : Option String
  REDDIT_CLIENT_SECRET : Option String
  REDDIT_USER_AGENT : Option String
deriving DecidableEq, Repr

/-- Python truthiness of an `os.getenv` result: `None` and the empty
string are falsy. -/
def truthy : Option String → Bool
  | none => false
  | some s => !s.isEmpty

/-- The `missing` list built by `Config.validate_config`: a falsy
YouTube key appends its name, a falsy member of either credential
group appends the whole group. -/
def missingVars (e : Env) : List String :=
  (if truthy e.YOUTUBE_API_KEY then [] else ["YOUTUBE_API_KEY"])
  ++ (if truthy e.TWITTER_API_KEY && truthy e.TWITTER_API_SECRET
        && truthy e.TWITTER_ACCESS_TOKEN && truthy e.TWITTER_ACCESS_SECRET then []
      else ["TWITTER_API_KEY", "TWITTER_API_SECRET",
            "TWITTER_ACCESS_TOKEN", "TWITTER_ACCESS_SECRET"])
  ++ (if truthy e.REDDIT_CLIENT_ID && truthy e.REDDIT_CLIENT_SECRET
        && truthy e.REDDIT_USER_AGENT then []
      else ["REDDIT_CLIENT_ID", "REDDIT_CLIENT_SECRET", "REDDIT_USER_AGENT"])

/-- Embedding of `Config.validate_config`: raises `ValueError` listing `missing`
when it is non-empty. -/
def validate_config (e : Env) : Except (List String) Unit :=
  if missingVars e = [] then .ok () else .error (missingVars e)

/-- The eight required variables paired with their set/unset status,
used to state claims about which names must be reported. -/
def credStatus (e : Env) : List (String × Bool) :=
  [("YOUTUBE_API_KEY", truthy e.YOUTUBE_API_KEY),
   ("TWITTER_API_KEY", truthy e.TWITTER_API_KEY),
   ("TWITTER_API_SECRET", truthy e.TWITTER_API_SECRET),
   ("TWITTER_ACCESS_TOKEN", truthy e.TWITTER_ACCESS_TOKEN),
   ("TWITTER_ACCESS_SECRET", truthy e.TWITTER_ACCESS_SECRET),
   ("REDDIT_CLIENT_ID", truthy e.REDDIT_CLIENT_ID),
   ("REDDIT_CLIENT_SECRET", truthy e.REDDIT_CLIENT_SECRET),
   ("REDDIT_USER_AGENT", truthy e.REDDIT_USER_AGENT)]

inductive MainOutcome (α : Type) where
  | argError
  | configError (missing : List String)
  | ran (result : α)
deriving DecidableEq, Repr

/-- The startup sequence of `main` in src/collect.py: argument
validation, then `Config.validate_config` (a failure exits with status
1 before any collector is built), and only then the collection run —
represented by the opaque-to-this-flow continuation `runCollection`,
which stands for everything from `get_collector` on (adapter
construction and network activity). -/
def mainFlow {α : Type} (argsValid : Bool) (e : Env)
    (runCollection : Unit → α) : MainOutcome α :=
  if !argsValid then .argError
  else match validate_config e with
  | .error missing => .configError missing
  | .ok () => .ran (runCollection ())

/-! ### Collector lemmas -/

theorem get_video_comments_loop_length (maxResults : Nat) :
    ∀ (pages : List (List YComment)) (acc : List CollectedRecord),
      acc.length ≤ maxResults →
      (get_video_comments_loop maxResults pages acc).length ≤ maxResults := by
  intro pages
  induction pages with
  | nil => intro acc h; exact h
  | cons page rest ih =>
    intro acc h
    unfold get_video_comments_loop
    by_cases h1 : maxResults ≤ acc.length
    · rw [if_pos h1]; exact h
    · rw [if_neg h1]
      by_cases h2 : page.isEmpty
      · rw [if_pos h2]; exact h
      · rw [if_neg h2]
        apply ih
        simp only [List.length_append, List.length_map, List.length_take]
        omega

theorem get_video_comments_length (pages : List (List YComment)) (maxResults : Nat) :
    (get_video_comments pages maxResults).length ≤ maxResults :=
  get_video_comments_loop_length maxResults pages [] (by simp)

theorem get_video_comments_loop_mem (maxResults : Nat) :
    ∀ (pages : List (List YComment)) (acc : List CollectedRecord) (r : CollectedRecord),
      r ∈ get_video_comments_loop maxResults pages acc →
      r ∈ acc ∨ ∃ page ∈ pages, ∃ c ∈ page, r = ycommentRecord c := by
  intro pages
  induction pages with
  | nil => intro acc r h; exact Or.inl h
  | cons page rest ih =>
    intro acc r h
    unfold get_video_comments_loop at h
    by_cases h1 : maxResults ≤ acc.length
    · rw [if_pos h1] at h; exact Or.inl h
    · rw [if_neg h1] at h
      by_cases h2 : page.isEmpty
      · rw [if_pos h2] at h; exact Or.inl h
      · rw [if_neg h2] at h
        rcases ih _ r h with hacc | ⟨pg, hpg, c, hc, hr⟩
        · rcases List.mem_append.mp hacc with hl | hr
          · exact Or.inl hl
          · rcases List.mem_map.mp hr with ⟨c, hc, hrc⟩
            exact Or.inr ⟨page, List.mem_cons_self _ _,
              c, List.mem_of_mem_take hc, hrc.symm⟩
        · exact Or.inr ⟨pg, List.mem_cons_of_mem _ hpg, c, hc, hr⟩

theorem search_collect_loop_length (per limit : Nat) (hper : 1 ≤ per) :
    ∀ (videos : List (List (List YComment))) (acc : List CollectedRecord),
      acc.length ≤ limit + per - 1 →
      (search_collect_loop per limit videos acc).length ≤ limit + per - 1 := by
  intro videos
  induction videos with
  | nil => intro acc h; exact h
  | cons v rest ih =>
    intro acc h
    unfold search_collect_loop
    by_cases h1 : limit ≤ acc.length
    · rw [if_pos h1]; exact h
    · rw [if_neg h1]
      apply ih
      have hv := get_video_comments_length v per
      simp only [List.length_append]
      omega

theorem search_and_collect_length (videos : List (List (List YComment))) (limit : Nat) :
    (search_and_collect videos limit).length ≤ limit + max 1 (limit / videos.length) - 1 := by
  unfold search_and_collect
  by_cases hv : videos.isEmpty
  · rw [if_pos hv]
    simp only [List.length_nil]
    omega
  · rw [if_neg hv]
    apply search_collect_loop_length _ _ (Nat.le_max_left _ _)
    simp only [List.length_nil]
    omega

theorem get_post_comments_length (forest : List RComment) (maxComments : Nat) :
    (get_post_comments forest maxComments).length ≤ maxComments := by
  unfold get_post_comments
  calc _ = (List.filter _ (forest.take maxComments)).length := List.length_map _ _
    _ ≤ (forest.take maxComments).length := List.length_filter_le _ _
    _ ≤ maxComments := List.length_take_le _ _

theorem reddit_search_collect_loop_length (per limit : Nat) (hper : 1 ≤ per) :
    ∀ (posts : List (List RComment)) (acc : List CollectedRecord),
      acc.length ≤ limit + per - 1 →
      (reddit_search_collect_loop per limit posts acc).length ≤ limit + per - 1 := by
  intro posts
  induction posts with
  | nil => intro acc h; exact h
  | cons post rest ih =>
    intro acc h
    unfold reddit_search_collect_loop
    by_cases h1 : limit ≤ acc.length
    · rw [if_pos h1]; exact h
    · rw [if_neg h1]
      apply ih
      have hp := get_post_comments_length post per
      simp only [List.length_append]
      omega

theorem reddit_search_and_collect_length (posts : List (List RComment)) (limit : Nat) :
    (reddit_search_and_collect posts limit).length
      ≤ limit + max 1 (limit / posts.length) - 1 := by
  unfold reddit_search_and_collect
  by_cases hp : posts.isEmpty
  · rw [if_pos hp]
    have hnil : posts = [] := List.isEmpty_iff.mp hp
    subst hnil
    simp only [reddit_search_collect_loop, List.length_nil]
    omega
  · rw [if_neg hp]
    apply reddit_search_collect_loop_length _ _ (Nat.le_max_left _ _)
    simp only [List.length_nil]
    omega

theorem search_collect_loop_mem (per limit : Nat) :
    ∀ (videos : List (List (List YComment))) (acc : List CollectedRecord)
      (r : CollectedRecord),
      r ∈ search_collect_loop per limit videos acc →
      r ∈ acc ∨ ∃ v ∈ videos, r ∈ get_video_comments v per := by
  intro videos
  induction videos with
  | nil => intro acc r h; exact Or.inl h
  | cons v rest ih =>
    intro acc r h
    unfold search_collect_loop at h
    by_cases h1 : limit ≤ acc.length
    · rw [if_pos h1] at h; exact Or.inl h
    · rw [if_neg h1] at h
      rcases ih _ r h with hacc | ⟨v2, hv2, hr⟩
      · rcases List.mem_append.mp hacc with hl | hr
        · exact Or.inl hl
        · exact Or.inr ⟨v, List.mem_cons_self _ _, hr⟩
      · exact Or.inr ⟨v2, List.mem_cons_of_mem _ hv2, hr⟩

theorem reddit_search_collect_loop_mem (per limit : Nat) :
    ∀ (posts : List (List RComment)) (acc : List CollectedRecord)
      (r : CollectedRecord),
      r ∈ reddit_search_collect_loop per limit posts acc →
      r ∈ acc ∨ ∃ post ∈ posts, r ∈ get_post_comments post per := by
  intro posts
  induction posts with
  | nil => intro acc r h; exact Or.inl h
  | cons post rest ih =>
    intro acc r h
    unfold reddit_search_collect_loop at h
    by_cases h1 : limit ≤ acc.length
    · rw [if_pos h1] at h; exact Or.inl h
    · rw [if_neg h1] at h
      rcases ih _ r h with hacc | ⟨p2, hp2, hr⟩
      · rcases List.mem_append.mp hacc with hl | hr
        · exact Or.inl hl
        · exact Or.inr ⟨post, List.mem_cons_self _ _, hr⟩
      · exact Or.inr ⟨p2, List.mem_cons_of_mem _ hp2, hr⟩

theorem get_post_comments_mem (forest : List RComment) (maxComments : Nat)
    (r : CollectedRecord) (h : r ∈ get_post_comments forest maxComments) :
    ∃ c ∈ forest, r = rcommentRecord c := by
  unfold get_post_comments at h
  rcases List.mem_map.mp h with ⟨c, hc, hrc⟩
  exact ⟨c, List.mem_of_mem_take (List.mem_of_mem_filter hc), hrc.symm⟩

theorem search_tweets_by_keywords_mem (perKeyword : List (List Tweet))
    (maxTweets : Nat) (r : CollectedRecord)
    (h : r ∈ search_tweets_by_keywords perKeyword maxTweets) :
    ∃ ts ∈ perKeyword, ∃ t ∈ ts, r = tweetRecord t := by
  unfold search_tweets_by_keywords at h
  rw [List.mem_flatten] at h
  rcases h with ⟨l, hl, hr⟩
  rcases List.mem_map.mp hl with ⟨ts, hts, hlts⟩
  subst hlts
  rcases List.mem_map.mp hr with ⟨t, ht, hrt⟩
  exact ⟨ts, hts, t, List.mem_of_mem_take ht, hrt.symm⟩

/-- C5: for every adapter, `collect_by_id` returns at most `limit`
records, over every authentication outcome and every upstream content
(comment pages, conversation stream, user timeline, comment forest). -/
theorem C5_collect_by_id_limit :
    (∀ (authOk : Bool) (pages : List (List YComment)) (limit : Nat),
      (youtube_collect_by_id authOk pages limit).length ≤ limit) ∧
    (∀ (authOk : Bool) (idType : TwitterIdType)
        (orig : Option (List Char × List Char)) (stream : List Tweet)
        (sid : List Char) (limit : Nat),
      (twitter_collect_by_id authOk idType orig stream sid limit).length ≤ limit) ∧
    (∀ (authOk removed : Bool) (comments : List RComment) (limit : Nat),
      (reddit_collect_by_id authOk removed comments limit).length ≤ limit) := by
  refine ⟨?_, ?_, ?_⟩
  · intro authOk pages limit
    unfold youtube_collect_by_id
    cases authOk with
    | false => simp
    | true => simpa using get_video_comments_length pages limit
  · intro authOk idType orig stream sid limit
    unfold twitter_collect_by_id
    cases authOk with
    | false => simp
    | true =>
      simp only [Bool.not_true, Bool.false_eq_true, if_false]
      cases idType with
      | username =>
        unfold get_user_tweets
        calc ((stream.take limit).map tweetRecord).length
            = (stream.take limit).length := List.length_map _ _
          _ ≤ limit := List.length_take_le _ _
      | tweet_id =>
        unfold get_tweet_replies
        cases orig with
        | none => simp
        | some pr =>
          calc _ = (List.filter _ (stream.take limit)).length := List.length_map _ _
            _ ≤ (stream.take limit).length := List.length_filter_le _ _
            _ ≤ limit := List.length_take_le _ _
      | other => simp
  · intro authOk removed comments limit
    unfold reddit_collect_by_id
    cases authOk with
    | false => simp
    | true =>
      cases removed with
      | true => simp
      | false =>
        simp only [Bool.not_true, Bool.false_eq_true, if_false, if_neg]
        calc _ = (List.filter _ (comments.take limit)).length := List.length_map _ _
          _ ≤ (comments.take limit).length := List.length_filter_le _ _
          _ ≤ limit := List.length_take_le _ _

/-- C3 counterexample: the claim quantifies over every adapter, but the
Twitter keyword search does not divide the `limit` budget among the
keywords at all — each keyword search is consumed up to `limit` items.
With 3 keywords, `limit = 3` and 3 matching tweets per keyword the call
returns 9 records, strictly more than `limit` plus the largest
claimed contribution `max(limit, limit // discovered_count + 1) = 3`. -/
theorem C3_counterexample :
    (twitter_collect_by_keywords true
      [[⟨"1".toList, "a".toList, none, none⟩, ⟨"2".toList, "b".toList, none, none⟩,
        ⟨"3".toList, "c".toList, none, none⟩],
       [⟨"4".toList, "d".toList, none, none⟩, ⟨"5".toList, "e".toList, none, none⟩,
        ⟨"6".toList, "f".toList, none, none⟩],
       [⟨"7".toList, "g".toList, none, none⟩, ⟨"8".toList, "h".toList, none, none⟩,
        ⟨"9".toList, "i".toList, none, none⟩]] 3).length = 9 ∧
    3 + max 3 (3 / 3 + 1) < 9 := by
  decide

/-- C3 amended: the YouTube and Reddit keyword modes distribute the
budget — each discovered item contributes at most
`max(1, limit // item_count)` records and the aggregate stays below
`limit` plus that per-item budget; the Twitter keyword mode instead
applies `limit` per keyword, so its aggregate is only bounded by
`keyword_count * limit`. -/
theorem C3_keyword_limit_amended :
    (∀ (videoPages : List (List YComment)) (per : Nat),
      (get_video_comments videoPages per).length ≤ per) ∧
    (∀ (videos : List (List (List YComment))) (limit : Nat),
      (search_and_collect videos limit).length
        ≤ limit + max 1 (limit / videos.length) - 1) ∧
    (∀ (authOk : Bool) (videos : List (List (List YComment))) (limit : Nat),
      (youtube_collect_by_keywords authOk videos limit).length
        ≤ limit + max 1 (limit / videos.length) - 1) ∧
    (∀ (forest : List RComment) (per : Nat),
      (get_post_comments forest per).length ≤ per) ∧
    (∀ (authOk : Bool) (posts : List (List RComment)) (limit : Nat),
      (reddit_collect_by_keywords authOk posts limit).length
        ≤ limit + max 1 (limit / posts.length) - 1) ∧
    (∀ (perKeyword : List (List Tweet)) (limit : Nat),
      (twitter_collect_by_keywords true perKeyword limit).length
        ≤ perKeyword.length * limit) := by
  refine ⟨fun v per => get_video_comments_length v per,
    fun videos limit => search_and_collect_length videos limit, ?_,
    fun forest per => get_post_comments_length forest per, ?_, ?_⟩
  · intro authOk videos limit
    unfold youtube_collect_by_keywords
    cases authOk with
    | false =>
      simp only [Bool.not_false, if_pos, List.length_nil]
      omega
    | true =>
      simp only [Bool.not_true, Bool.false_eq_true, if_false]
      exact search_and_collect_length videos limit
  · intro authOk posts limit
    unfold reddit_collect_by_keywords
    cases authOk with
    | false =>
      simp only [Bool.not_false, if_pos, List.length_nil]
      omega
    | true =>
      simp only [Bool.not_true, Bool.false_eq_true, if_false]
      exact reddit_search_and_collect_length posts limit
  · intro perKeyword limit
    unfold twitter_collect_by_keywords search_tweets_by_keywords
    simp only [Bool.not_true, Bool.false_eq_true, if_false]
    induction perKeyword with
    | nil => simp
    | cons ts rest ih =>
      simp only [List.map_cons, List.flatten_cons, List.length_append,
        List.length_map, List.length_cons]
      have h1 : (ts.take limit).length ≤ limit := List.length_take_le _ _
      calc (ts.take limit).length + _ ≤ limit + rest.length * limit := by
            exact Nat.add_le_add h1 (by simpa using ih)
        _ = (rest.length + 1) * limit := by ring

/-- C6 counterexample: no adapter checks `id` or `text_raw` for
emptiness, so an upstream item with an empty body yields a record with
empty `text_raw`: a Reddit comment with body `""` (which is not a
deleted/removed sentinel) and a YouTube comment with empty
`textDisplay` both survive into the returned records. -/
theorem C6_counterexample :
    reddit_collect_by_id true false [⟨"c1".toList, []⟩] 10
      = [⟨"reddit".toList, "c1".toList, []⟩] ∧
    youtube_collect_by_id true [[⟨"y1".toList, []⟩]] 5
      = [⟨"youtube".toList, "y1".toList, []⟩] := by
  decide

theorem twitter_collect_by_id_mem (authOk : Bool) (idType : TwitterIdType)
    (orig : Option (List Char × List Char)) (stream : List Tweet)
    (sid : List Char) (limit : Nat) (r : CollectedRecord)
    (h : r ∈ twitter_collect_by_id authOk idType orig stream sid limit) :
    ∃ t ∈ stream, r = tweetRecord t := by
  unfold twitter_collect_by_id at h
  cases authOk with
  | false => simp at h
  | true =>
    simp only [Bool.not_true, Bool.false_eq_true, if_false] at h
    cases idType with
    | username =>
      unfold get_user_tweets at h
      rcases List.mem_map.mp h with ⟨t, ht, hr⟩
      exact ⟨t, List.mem_of_mem_take ht, hr.symm⟩
    | tweet_id =>
      unfold get_tweet_replies at h
      cases orig with
      | none => simp at h
      | some pr =>
        rcases List.mem_map.mp h with ⟨t, ht, hr⟩
        exact ⟨t, List.mem_of_mem_take (List.mem_of_mem_filter ht), hr.symm⟩
    | other => simp at h

/-- C6 amended: every record returned by `collect_by_id` or
`collect_by_keywords`, on each adapter, carries the upstream item
identifier and text verbatim (Reddit additionally drops the literal
deleted/removed sentinels), and no emptiness check is ever applied; in
consequence `id` and `text_raw` of every record are non-empty exactly
when the fields of the upstream items are, which this theorem states as
the conditional invariant over both modes of all three adapters. -/
theorem C6_record_fields_amended :
    (∀ (authOk : Bool) (pages : List (List YComment)) (limit : Nat),
      (∀ page ∈ pages, ∀ c ∈ page, c.cid ≠ [] ∧ c.textDisplay ≠ []) →
      ∀ r ∈ youtube_collect_by_id authOk pages limit,
        r.id ≠ [] ∧ r.text_raw ≠ []) ∧
    (∀ (authOk : Bool) (idType : TwitterIdType)
        (orig : Option (List Char × List Char)) (stream : List Tweet)
        (sid : List Char) (limit : Nat),
      (∀ t ∈ stream, t.id_str ≠ [] ∧ t.full_text ≠ []) →
      ∀ r ∈ twitter_collect_by_id authOk idType orig stream sid limit,
        r.id ≠ [] ∧ r.text_raw ≠ []) ∧
    (∀ (authOk removed : Bool) (comments : List RComment) (limit : Nat),
      (∀ c ∈ comments, c.cid ≠ [] ∧ c.body ≠ []) →
      ∀ r ∈ reddit_collect_by_id authOk removed comments limit,
        r.id ≠ [] ∧ r.text_raw ≠ []) ∧
    (∀ (authOk : Bool) (videos : List (List (List YComment))) (limit : Nat),
      (∀ v ∈ videos, ∀ page ∈ v, ∀ c ∈ page, c.cid ≠ [] ∧ c.textDisplay ≠ []) →
      ∀ r ∈ youtube_collect_by_keywords authOk videos limit,
        r.id ≠ [] ∧ r.text_raw ≠ []) ∧
    (∀ (authOk : Bool) (perKeyword : List (List Tweet)) (limit : Nat),
      (∀ ts ∈ perKeyword, ∀ t ∈ ts, t.id_str ≠ [] ∧ t.full_text ≠ []) →
      ∀ r ∈ twitter_collect_by_keywords authOk perKeyword limit,
        r.id ≠ [] ∧ r.text_raw ≠ []) ∧
    (∀ (authOk : Bool) (posts : List (List RComment)) (limit : Nat),
      (∀ post ∈ posts, ∀ c ∈ post, c.cid ≠ [] ∧ c.body ≠ []) →
      ∀ r ∈ reddit_collect_by_keywords authOk posts limit,
        r.id ≠ [] ∧ r.text_raw ≠ []) := by
  refine ⟨?_, ?_, ?_, ?_, ?_, ?_⟩
  · intro authOk pages limit hup r hr
    unfold youtube_collect_by_id at hr
    cases authOk with
    | false => simp at hr
    | true =>
      simp only [Bool.not_true, Bool.false_eq_true, if_false] at hr
      rcases get_video_comments_loop_mem limit pages [] r hr with h0 | ⟨pg, hpg, c, hc, hrc⟩
      · simp at h0
      · subst hrc
        exact hup pg hpg c hc
  · intro authOk idType orig stream sid limit hup r hr
    rcases twitter_collect_by_id_mem authOk idType orig stream sid limit r hr with ⟨t, ht, hrt⟩
    subst hrt
    exact hup t ht
  · intro authOk removed comments limit hup r hr
    unfold reddit_collect_by_id at hr
    cases authOk with
    | false => simp at hr
    | true =>
      cases removed with
      | true => simp at hr
      | false =>
        simp only [Bool.not_true, Bool.false_eq_true, if_false] at hr
        rcases List.mem_map.mp hr with ⟨c, hc, hrc⟩
        subst hrc
        exact hup c (List.mem_of_mem_take (List.mem_of_mem_filter hc))
  · intro authOk videos limit hup r hr
    unfold youtube_collect_by_keywords at hr
    cases authOk with
    | false => simp at hr
    | true =>
      simp only [Bool.not_true, Bool.false_eq_true, if_false] at hr
      unfold search_and_collect at hr
      by_cases hv : videos.isEmpty
      · rw [if_pos hv] at hr
        simp at hr
      · rw [if_neg hv] at hr
        rcases search_collect_loop_mem _ limit videos [] r hr with h0 | ⟨v, hv2, hrv⟩
        · simp at h0
        · unfold get_video_comments at hrv
          rcases get_video_comments_loop_mem _ v [] r hrv with h0 | ⟨pg, hpg, c, hc, hrc⟩
          · simp at h0
          · subst hrc
            exact hup v hv2 pg hpg c hc
  · intro authOk perKeyword limit hup r hr
    unfold twitter_collect_by_keywords at hr
    cases authOk with
    | false => simp at hr
    | true =>
      simp only [Bool.not_true, Bool.false_eq_true, if_false] at hr
      rcases search_tweets_by_keywords_mem perKeyword limit r hr with ⟨ts, hts, t, ht, hrt⟩
      subst hrt
      exact hup ts hts t ht
  · intro authOk posts limit hup r hr
    unfold reddit_collect_by_keywords at hr
    cases authOk with
    | false => simp at hr
    | true =>
      simp only [Bool.not_true, Bool.false_eq_true, if_false] at hr
      unfold reddit_search_and_collect at hr
      rcases reddit_search_collect_loop_mem _ limit posts [] r hr with h0 | ⟨post, hpost, hrp⟩
      · simp at h0
      · rcases get_post_comments_mem post _ r hrp with ⟨c, hc, hrc⟩
        subst hrc
        exact hup post hpost c hc

/-- Witness for C6 amended at concrete inputs: one non-empty YouTube
comment, one non-empty tweet in username mode and one non-empty Reddit
comment for the by-id modes, and one non-empty discovered item for
each of the three keyword modes. -/
theorem C6_record_fields_amended_witness :
    ((⟨"youtube".toList, "y1".toList, "hi".toList⟩ : CollectedRecord).id ≠ [] ∧
      (⟨"youtube".toList, "y1".toList, "hi".toList⟩ : CollectedRecord).text_raw ≠ []) ∧
    ((⟨"twitter".toList, "t1".toList, "txt".toList⟩ : CollectedRecord).id ≠ [] ∧
      (⟨"twitter".toList, "t1".toList, "txt".toList⟩ : CollectedRecord).text_raw ≠ []) ∧
    ((⟨"reddit".toList, "c1".toList, "body".toList⟩ : CollectedRecord).id ≠ [] ∧
      (⟨"reddit".toList, "c1".toList, "body".toList⟩ : CollectedRecord).text_raw ≠ []) ∧
    ((⟨"youtube".toList, "y2".toList, "ok".toList⟩ : CollectedRecord).id ≠ [] ∧
      (⟨"youtube".toList, "y2".toList, "ok".toList⟩ : CollectedRecord).text_raw ≠ []) ∧
    ((⟨"twitter".toList, "t2".toList, "tw".toList⟩ : CollectedRecord).id ≠ [] ∧
      (⟨"twitter".toList, "t2".toList, "tw".toList⟩ : CollectedRecord).text_raw ≠ []) ∧
    ((⟨"reddit".toList, "c2".toList, "bd".toList⟩ : CollectedRecord).id ≠ [] ∧
      (⟨"reddit".toList, "c2".toList, "bd".toList⟩ : CollectedRecord).text_raw ≠ []) :=
  ⟨C6_record_fields_amended.1 true [[⟨"y1".toList, "hi".toList⟩]] 5 (by decide)
      ⟨"youtube".toList, "y1".toList, "hi".toList⟩ (by decide),
   C6_record_fields_amended.2.1 true .username none
      [⟨"t1".toList, "txt".toList, none, none⟩] "s".toList 5 (by decide)
      ⟨"twitter".toList, "t1".toList, "txt".toList⟩ (by decide),
   C6_record_fields_amended.2.2.1 true false [⟨"c1".toList, "body".toList⟩] 5 (by decide)
      ⟨"reddit".toList, "c1".toList, "body".toList⟩ (by decide),
   C6_record_fields_amended.2.2.2.1 true [[[⟨"y2".toList, "ok".toList⟩]]] 5 (by decide)
      ⟨"youtube".toList, "y2".toList, "ok".toList⟩ (by decide),
   C6_record_fields_amended.2.2.2.2.1 true [[⟨"t2".toList, "tw".toList, none, none⟩]] 5
      (by decide) ⟨"twitter".toList, "t2".toList, "tw".toList⟩ (by decide),
   C6_record_fields_amended.2.2.2.2.2 true [[⟨"c2".toList, "bd".toList⟩]] 5 (by decide)
      ⟨"reddit".toList, "c2".toList, "bd".toList⟩ (by decide)⟩

/-! ### Dataset Normalizer lemmas -/

theorem fileLogAux_mem (fname : List Char) (l2 : List JsonLine) :
    ∀ (l1 : List JsonLine) (n : Nat),
      (fname, n + l1.length) ∈ fileLogAux fname n (l1 ++ JsonLine.malformed :: l2) := by
  intro l1
  induction l1 with
  | nil =>
    intro n
    simp [fileLogAux]
  | cons a t ih =>
    intro n
    have harith : n + (a :: t).length = (n + 1) + t.length := by
      simp only [List.length_cons]; omega
    rw [harith]
    cases a with
    | malformed =>
      simp only [List.cons_append, fileLogAux]
      exact List.mem_cons_of_mem _ (ih (n + 1))
    | parsed o =>
      simp only [List.cons_append, fileLogAux]
      exact ih (n + 1)

/-- C7: a malformed JSON line in a batch file contributes no row, is
logged with its file name and 1-based line number, and changes nothing
else: the rows produced from the surrounding files and from the valid
lines before and after it are exactly those produced when the malformed
line is absent. -/
theorem C7_malformed_line_skipped (before after : List BatchFile)
    (fname : List Char) (l1 l2 : List JsonLine) :
    process_jsonl_files (some (before ++ ⟨fname, l1 ++ JsonLine.malformed :: l2⟩ :: after))
      = process_jsonl_files (some (before ++ ⟨fname, l1 ++ l2⟩ :: after)) ∧
    (fname, l1.length + 1) ∈
      dirLog (before ++ ⟨fname, l1 ++ JsonLine.malformed :: l2⟩ :: after) := by
  constructor
  · simp [process_jsonl_files, dirRows, fileRows, List.filterMap_append, lineRow]
  · unfold dirLog
    rw [List.mem_flatten]
    refine ⟨fileLog ⟨fname, l1 ++ JsonLine.malformed :: l2⟩, ?_, ?_⟩
    · exact List.mem_map_of_mem _ (by simp)
    · unfold fileLog
      have := fileLogAux_mem fname l2 l1 1
      simpa [Nat.add_comm] using this

theorem extractRow_text (o : JsonObj) (r : PreRow) (h : extractRow o = some r) :
    r.text = pyStrip (jsonText o) ∧ pyStrip (jsonText o) ≠ [] := by
  unfold extractRow at h
  by_cases hc : !(jsonText o).isEmpty && !(pyStrip (jsonText o)).isEmpty
  · rw [if_pos hc] at h
    cases h
    refine ⟨rfl, ?_⟩
    have h2 := (Bool.and_eq_true _ _).mp hc |>.2
    simpa [List.isEmpty_iff] using h2
  · rw [if_neg hc] at h
    cases h

theorem mc_extractRow_text (o : JsonObj) (r : PreRow) (h : mc_extractRow o = some r) :
    r.text = pyStrip (jsonText o) ∧ pyStrip (jsonText o) ≠ [] := by
  unfold mc_extractRow at h
  by_cases hc : !(jsonText o).isEmpty && !(pyStrip (jsonText o)).isEmpty
  · rw [if_pos hc] at h
    cases h
    refine ⟨rfl, ?_⟩
    have h2 := (Bool.and_eq_true _ _).mp hc |>.2
    simpa [List.isEmpty_iff] using h2
  · rw [if_neg hc] at h
    cases h

/-- C10: a parsed batch line whose extracted text (after the
`text_raw` → `text` → `content` fallback) strips to nothing produces
no row, in both normalizer scripts; consequently every emitted row has
non-empty trimmed text. -/
theorem C10_normalizer_nonempty_text :
    (∀ o : JsonObj, pyStrip (jsonText o) = [] →
      extractRow o = none ∧ mc_extractRow o = none) ∧
    (∀ (dir : Option (List BatchFile)) (r : PreRow),
      r ∈ process_jsonl_files dir → pyStrip r.text ≠ []) ∧
    (∀ (dir : Option (List BatchFile)) (r : PreRow),
      r ∈ mc_process_jsonl_files dir → pyStrip r.text ≠ []) := by
  refine ⟨?_, ?_, ?_⟩
  · intro o hs
    constructor
    · unfold extractRow
      rw [if_neg (by simp [hs])]
    · unfold mc_extractRow
      rw [if_neg (by simp [hs])]
  · intro dir r hr
    cases dir with
    | none => simp [process_jsonl_files] at hr
    | some files =>
      simp only [process_jsonl_files, dirRows, List.mem_flatten] at hr
      rcases hr with ⟨rows, hrows, hr⟩
      rcases List.mem_map.mp hrows with ⟨f, _, hf⟩
      subst hf
      rcases List.mem_filterMap.mp hr with ⟨l, _, hl⟩
      cases l with
      | malformed => simp [lineRow] at hl
      | parsed o =>
        simp only [lineRow] at hl
        rcases extractRow_text o r hl with ⟨htext, hne⟩
        rw [htext, pyStrip_idem]
        exact hne
  · intro dir r hr
    cases dir with
    | none => simp [mc_process_jsonl_files] at hr
    | some files =>
      simp only [mc_process_jsonl_files, mc_dirRows, List.mem_flatten] at hr
      rcases hr with ⟨rows, hrows, hr⟩
      rcases List.mem_map.mp hrows with ⟨f, _, hf⟩
      subst hf
      rcases List.mem_filterMap.mp hr with ⟨l, _, hl⟩
      cases l with
      | malformed => simp [mc_lineRow] at hl
      | parsed o =>
        simp only [mc_lineRow] at hl
        rcases mc_extractRow_text o r hl with ⟨htext, hne⟩
        rw [htext, pyStrip_idem]
        exact hne

/-- Witness for C10 at a concrete input: one whitespace-only line is
dropped and one real line survives with non-empty trimmed text. -/
theorem C10_normalizer_nonempty_text_witness :
    (extractRow ⟨none, none, none, some ("   ".toList), none, none⟩ = none ∧
      mc_extractRow ⟨none, none, none, some ("   ".toList), none, none⟩ = none) ∧
    pyStrip (⟨"unknown".toList, none, "hello".toList, none⟩ : PreRow).text ≠ [] :=
  ⟨C10_normalizer_nonempty_text.1 ⟨none, none, none, some ("   ".toList), none, none⟩
      (by decide),
   C10_normalizer_nonempty_text.2.1
      (some [⟨"f.jsonl".toList, [JsonLine.parsed ⟨none, none, none, some ("hello".toList), none, none⟩]⟩])
      ⟨"unknown".toList, none, "hello".toList, none⟩ (by decide)⟩

/-! ### Label mapping claims -/

theorem lookup_getD_mem {α β : Type} [BEq α] (l : List (α × β)) (k : α) (d : β) :
    (l.lookup k).getD d = d ∨ (l.lookup k).getD d ∈ l.map Prod.snd := by
  induction l with
  | nil => left; rfl
  | cons p rest ih =>
    rcases p with ⟨a, b⟩
    rw [List.lookup]
    cases h : k == a with
    | true =>
      right
      simp
    | false =>
      rcases ih with h0 | h0
      · left; exact h0
      · right; exact List.mem_cons_of_mem _ h0

/-- C2 counterexample: the TSAC label lookup is case-sensitive — the
exact key `"Positive"` maps to class 1 while its case variant
`"positive"` is unrecognized and defaults to class 0, although both
lower to the same string. -/
theorem C2_counterexample :
    pyLower ("positive".toList) = pyLower ("Positive".toList) ∧
    tsacMapLabel ("Positive".toList) = 1 ∧
    tsacMapLabel ("positive".toList) = 0 := by
  decide

/-- C2 amended: the label mapping of every origin is total into the scheme
classes \x7b0,1,2\x7d with unrecognized strings defaulting to 0, and
the Excel and ArSAS mappings are case-insensitive (two strings with the
same lowering map identically); the TSAC mapping is case-sensitive,
recognizing only the exact forms "Positive"/"Negative"/"Neutral". -/
theorem C2_label_mapping_amended :
    (∀ s : List Char, excelMapLabel s = 0 ∨ excelMapLabel s = 1 ∨ excelMapLabel s = 2) ∧
    (∀ s : List Char, arsasMapLabel s = 0 ∨ arsasMapLabel s = 1 ∨ arsasMapLabel s = 2) ∧
    (∀ s : List Char, tsacMapLabel s = 0 ∨ tsacMapLabel s = 1 ∨ tsacMapLabel s = 2) ∧
    (∀ s t : List Char, pyLower s = pyLower t → excelMapLabel s = excelMapLabel t) ∧
    (∀ s t : List Char, pyLower s = pyLower t → arsasMapLabel s = arsasMapLabel t) := by
  refine ⟨?_, ?_, ?_, ?_, ?_⟩
  · intro s
    unfold excelMapLabel
    rcases lookup_getD_mem excelLabelMapping (pyLower (pyStrip s)) 0 with h | h
    · left; exact h
    · rw [show excelLabelMapping.map Prod.snd = [2, 2, 2, 2, 2, 1, 1, 0, 0, 0, 0] from rfl] at h
      simp only [List.mem_cons, List.not_mem_nil, or_false] at h
      omega
  · intro s
    unfold arsasMapLabel
    rcases lookup_getD_mem arsasLabelMapping (pyLower (pyStrip s)) 0 with h | h
    · left; exact h
    · rw [show arsasLabelMapping.map Prod.snd = [1, 1, 2, 2, 0, 0] from rfl] at h
      simp only [List.mem_cons, List.not_mem_nil, or_false] at h
      omega
  · intro s
    unfold tsacMapLabel
    rcases lookup_getD_mem tsacLabelMapping s 0 with h | h
    · left; exact h
    · rw [show tsacLabelMapping.map Prod.snd = [1, 2, 0] from rfl] at h
      simp only [List.mem_cons, List.not_mem_nil, or_false] at h
      omega
  · intro s t h
    unfold excelMapLabel
    rw [← pyStrip_pyLower, ← pyStrip_pyLower t, h]
  · intro s t h
    unfold arsasMapLabel
    rw [← pyStrip_pyLower, ← pyStrip_pyLower t, h]

/-- Witness for C2 amended at concrete label strings: `"HAPPINESS"`
and `"happiness"` agree under the Excel mapping, `"NEG"` and `"neg"`
under the ArSAS mapping, and totality evaluated at an arbitrary junk
string. -/
theorem C2_label_mapping_amended_witness :
    excelMapLabel ("HAPPINESS".toList) = excelMapLabel ("happiness".toList) ∧
    arsasMapLabel ("NEG".toList) = arsasMapLabel ("neg".toList) ∧
    (excelMapLabel ("garbage!".toList) = 0 ∨ excelMapLabel ("garbage!".toList) = 1 ∨
      excelMapLabel ("garbage!".toList) = 2) :=
  ⟨C2_label_mapping_amended.2.2.2.1 ("HAPPINESS".toList) ("happiness".toList) (by decide),
   C2_label_mapping_amended.2.2.2.2 ("NEG".toList) ("neg".toList) (by decide),
   C2_label_mapping_amended.1 ("garbage!".toList)⟩

/-! ### Merge Engine origin-failure claims -/

/-- C1 counterexample: a single failing origin does not get skipped —
when loading the ArSAS corpus fails while the spreadsheet corpus loads
fine with usable data, the whole merge aborts with no output, although
the very same input with ArSAS merely empty produces a written table. -/
theorem C1_counterexample :
    merge_all_datasets (.ok [⟨none, some ("abcdefg".toList)⟩]) (.error ()) (.ok []) none
      = .aborted ∧
    merge_all_datasets (.ok [⟨none, some ("abcdefg".toList)⟩]) (.ok []) (.ok []) none
      = .written [⟨"youtube".toList, none, "abcdefg".toList, 0⟩] := by
  decide

/-- C1 amended: only a TSAC load failure or a missing batch directory
is skipped (each is equivalent to an empty origin); a spreadsheet
(Excel) load failure or an ArSAS load failure aborts the entire merge
regardless of the other origins; the report-failure-write-nothing
outcome occurs whenever every origin yields no rows. -/
theorem C1_origin_failures_amended :
    (∀ (excel : Except Unit (List ExcelRow)) (arsas : Except Unit (List ArsasItem))
        (jsonlDir : Option (List BatchFile)),
      merge_all_datasets excel arsas (.error ()) jsonlDir
        = merge_all_datasets excel arsas (.ok []) jsonlDir) ∧
    (∀ (excel : Except Unit (List ExcelRow)) (arsas : Except Unit (List ArsasItem))
        (tsac : Except Unit (List TsacItem)),
      merge_all_datasets excel arsas tsac none
        = merge_all_datasets excel arsas tsac (some [])) ∧
    (∀ (arsas : Except Unit (List ArsasItem)) (tsac : Except Unit (List TsacItem))
        (jsonlDir : Option (List BatchFile)),
      merge_all_datasets (.error ()) arsas tsac jsonlDir = .aborted) ∧
    (∀ (excelRows : List ExcelRow) (tsac : Except Unit (List TsacItem))
        (jsonlDir : Option (List BatchFile)),
      merge_all_datasets (.ok excelRows) (.error ()) tsac jsonlDir = .aborted) ∧
    merge_all_datasets (.ok []) (.ok []) (.ok []) none = .noData := by
  refine ⟨?_, ?_, ?_, ?_, by decide⟩
  · intro excel arsas jsonlDir
    unfold merge_all_datasets
    cases hpe : process_excel_data excel with
    | error e => rfl
    | ok excelDf =>
      cases hpa : process_arsas_dataset arsas with
      | error e => rfl
      | ok arsasDf => rfl
  · intro excel arsas tsac
    unfold merge_all_datasets
    cases hpe : process_excel_data excel with
    | error e => rfl
    | ok excelDf =>
      cases hpa : process_arsas_dataset arsas with
      | error e => rfl
      | ok arsasDf => rfl
  · intro arsas tsac jsonlDir
    rfl
  · intro excelRows tsac jsonlDir
    rfl

/-! ### Deduplication and cleaning claims -/

theorem dropDupAux_mem_invariant :
    ∀ (rows : List Row) (seen : List (List Char)) (r' : Row),
      r' ∈ dropDupAux seen rows →
      r'.text ∉ seen ∧ rows.find? (fun x => x.text == r'.text) = some r' := by
  intro rows
  induction rows with
  | nil =>
    intro seen r' h
    simp [dropDupAux] at h
  | cons r rest ih =>
    intro seen r' h
    unfold dropDupAux at h
    by_cases hseen : r.text ∈ seen
    · rw [if_pos hseen] at h
      rcases ih seen r' h with ⟨hnot, hfind⟩
      refine ⟨hnot, ?_⟩
      have hne : (r.text == r'.text) = false := by
        rw [beq_eq_false_iff_ne]
        intro he
        exact hnot (he ▸ hseen)
      rw [List.find?_cons, hne]
      exact hfind
    · rw [if_neg hseen] at h
      rcases List.mem_cons.mp h with rfl | h0
      · refine ⟨hseen, ?_⟩
        rw [List.find?_cons, beq_self_eq_true]
      · rcases ih (r.text :: seen) r' h0 with ⟨hnot, hfind⟩
        refine ⟨fun hm => hnot (List.mem_cons_of_mem _ hm), ?_⟩
        have hne : (r.text == r'.text) = false := by
          rw [beq_eq_false_iff_ne]
          intro he
          exact hnot (he ▸ List.mem_cons_self _ _)
        rw [List.find?_cons, hne]
        exact hfind

theorem dropDupAux_text_nodup :
    ∀ (rows : List Row) (seen : List (List Char)),
      ((dropDupAux seen rows).map Row.text).Nodup := by
  intro rows
  induction rows with
  | nil => intro seen; simp [dropDupAux]
  | cons r rest ih =>
    intro seen
    unfold dropDupAux
    by_cases hseen : r.text ∈ seen
    · rw [if_pos hseen]; exact ih seen
    · rw [if_neg hseen]
      simp only [List.map_cons, List.nodup_cons]
      refine ⟨?_, ih _⟩
      intro hmem
      rcases List.mem_map.mp hmem with ⟨r', hr', he⟩
      rcases dropDupAux_mem_invariant rest (r.text :: seen) r' hr' with ⟨hnot, _⟩
      refine hnot ?_
      rw [he]
      exact List.mem_cons_self _ _

theorem dropDupAux_sublist :
    ∀ (rows : List Row) (seen : List (List Char)), List.Sublist (dropDupAux seen rows) rows := by
  intro rows
  induction rows with
  | nil => intro seen; simp [dropDupAux]
  | cons r rest ih =>
    intro seen
    unfold dropDupAux
    by_cases hseen : r.text ∈ seen
    · rw [if_pos hseen]
      exact (ih seen).trans (List.sublist_cons_self r rest)
    · rw [if_neg hseen]
      exact (ih _).cons₂ r

theorem dropDupAux_covers :
    ∀ (rows : List Row) (seen : List (List Char)) (r : Row), r ∈ rows →
      r.text ∈ seen ∨ ∃ r' ∈ dropDupAux seen rows, r'.text = r.text := by
  intro rows
  induction rows with
  | nil => intro seen r h; cases h
  | cons a rest ih =>
    intro seen r h
    unfold dropDupAux
    by_cases hseen : a.text ∈ seen
    · rw [if_pos hseen]
      rcases List.mem_cons.mp h with rfl | h0
      · left; exact hseen
      · exact ih seen r h0
    · rw [if_neg hseen]
      rcases List.mem_cons.mp h with rfl | h0
      · right; exact ⟨r, List.mem_cons_self _ _, rfl⟩
      · rcases ih (a.text :: seen) r h0 with hmem | ⟨r', hr', he⟩
        · rcases List.mem_cons.mp hmem with he | hmem2
          · right; exact ⟨a, List.mem_cons_self _ _, he.symm⟩
          · left; exact hmem2
        · right; exact ⟨r', List.mem_cons_of_mem _ hr', he⟩

/-- C4 counterexample: deduplication is by exact raw text equality,
not trim-normalized equality.  Two spreadsheet rows whose texts are
`" abcdef "` and `"abcdef"` have equal trimmed texts, yet both survive
into the written table. -/
theorem C4_counterexample :
    merge_all_datasets
      (.ok [⟨none, some (" abcdef ".toList)⟩, ⟨none, some ("abcdef".toList)⟩])
      (.ok []) (.ok []) none
      = .written [⟨"youtube".toList, none, " abcdef ".toList, 0⟩,
                  ⟨"youtube".toList, none, "abcdef".toList, 0⟩] ∧
    pyStrip (" abcdef ".toList) = pyStrip ("abcdef".toList) := by
  decide

/-- C4 amended: the Merge Engine deduplicates the concatenated table
by EXACT raw text equality (only the normalizer origin pre-trims its
texts), keeping the first occurrence in concatenation order: the
surviving texts are pairwise distinct, the survivors form an
order-preserving sub-sequence of the concatenation, every concatenated
row has a surviving representative with its exact text, and each
survivor is precisely the first row carrying its text; the written
table is that deduplicated sequence further filtered by trimmed
length. -/
theorem C4_dedup_amended :
    (∀ rows : List Row,
      ((dropDuplicatesByText rows).map Row.text).Nodup ∧
      List.Sublist (dropDuplicatesByText rows) rows ∧
      (∀ r ∈ rows, ∃ r' ∈ dropDuplicatesByText rows, r'.text = r.text) ∧
      (∀ r' ∈ dropDuplicatesByText rows,
        rows.find? (fun x => x.text == r'.text) = some r')) ∧
    (∀ (excelRows : List ExcelRow) (arsasItems : List ArsasItem)
        (tsac : Except Unit (List TsacItem)) (jsonlDir : Option (List BatchFile))
        (tbl : List Row),
      merge_all_datasets (.ok excelRows) (.ok arsasItems) tsac jsonlDir = .written tbl →
      tbl = (dropDuplicatesByText (mergeConcatRows (excelRows.map excelPreRow)
        (arsasItems.map arsasPreRow) (process_tsac_dataset tsac)
        (process_jsonl_files jsonlDir))).filter longEnough) := by
  constructor
  · intro rows
    refine ⟨dropDupAux_text_nodup rows [], dropDupAux_sublist rows [], ?_, ?_⟩
    · intro r hr
      rcases dropDupAux_covers rows [] r hr with hmem | hex
      · cases hmem
      · exact hex
    · intro r' hr'
      exact (dropDupAux_mem_invariant rows [] r' hr').2
  · intro excelRows arsasItems tsac jsonlDir tbl h
    unfold merge_all_datasets at h
    simp only [process_excel_data, Except.map, process_arsas_dataset] at h
    split at h
    · simp at h
    · simp only [MergeOutcome.written.injEq] at h
      exact h.symm

/-- Witness for C4 amended at concrete inputs: the first of two
equal-text rows is the one `find?` locates, and a concrete merge run
written table equals the dedup-then-filter of its concatenation. -/
theorem C4_dedup_amended_witness :
    List.find?
        (fun x : Row => x.text == (⟨"s".toList, none, "aaaaaa".toList, 0⟩ : Row).text)
        ([⟨"s".toList, none, "aaaaaa".toList, 0⟩,
          ⟨"t".toList, none, "aaaaaa".toList, 1⟩] : List Row)
      = some ⟨"s".toList, none, "aaaaaa".toList, 0⟩ ∧
    [(⟨"youtube".toList, none, "abcdefg".toList, 0⟩ : Row)]
      = (dropDuplicatesByText (mergeConcatRows
          ([⟨none, some ("abcdefg".toList)⟩].map excelPreRow)
          (([] : List ArsasItem).map arsasPreRow)
          (process_tsac_dataset (.ok []))
          (process_jsonl_files none))).filter longEnough :=
  ⟨(C4_dedup_amended.1
      [⟨"s".toList, none, "aaaaaa".toList, 0⟩, ⟨"t".toList, none, "aaaaaa".toList, 1⟩]).2.2.2
      ⟨"s".toList, none, "aaaaaa".toList, 0⟩ (by decide),
   C4_dedup_amended.2 [⟨none, some ("abcdefg".toList)⟩] [] (.ok []) none
      [⟨"youtube".toList, none, "abcdefg".toList, 0⟩] (by decide)⟩

/-- C9: every row of the written merged table has trimmed text length
strictly above 5 (so rows with trimmed length at most 5 are excluded),
and every deduplicated row with trimmed text length exactly 6 is
retained in the written table. -/
theorem C9_short_text_filter (excel : Except Unit (List ExcelRow))
    (arsas : Except Unit (List ArsasItem)) (tsac : Except Unit (List TsacItem))
    (jsonlDir : Option (List BatchFile)) (tbl : List Row)
    (h : merge_all_datasets excel arsas tsac jsonlDir = .written tbl) :
    (∀ r ∈ tbl, 5 < (pyStrip r.text).length) ∧
    (∀ excelDf arsasDf, process_excel_data excel = .ok excelDf →
      process_arsas_dataset arsas = .ok arsasDf →
      ∀ r ∈ dropDuplicatesByText (mergeConcatRows excelDf arsasDf
        (process_tsac_dataset tsac) (process_jsonl_files jsonlDir)),
        (pyStrip r.text).length = 6 → r ∈ tbl) := by
  cases excel with
  | error e =>
    exfalso
    unfold merge_all_datasets at h
    simp [process_excel_data, Except.map] at h
  | ok excelRows =>
    cases arsas with
    | error e =>
      exfalso
      unfold merge_all_datasets at h
      simp [process_excel_data, Except.map, process_arsas_dataset] at h
    | ok arsasItems =>
      unfold merge_all_datasets at h
      simp only [process_excel_data, Except.map, process_arsas_dataset] at h
      split at h
      · simp at h
      · simp only [MergeOutcome.written.injEq] at h
        subst h
        constructor
        · intro r hr
          have hl := List.of_mem_filter hr
          simpa [longEnough] using hl
        · intro excelDf arsasDf he ha r hr hlen
          simp only [process_excel_data, Except.map, Except.ok.injEq] at he
          simp only [process_arsas_dataset, Except.ok.injEq] at ha
          subst he; subst ha
          exact List.mem_filter.mpr ⟨hr, by simp [longEnough, hlen]⟩

/-- Witness for C9 at a concrete run: a single six-character
spreadsheet row passes the filter and is retained. -/
theorem C9_short_text_filter_witness :
    5 < (pyStrip ("abcdef".toList)).length ∧
    (⟨"youtube".toList, none, "abcdef".toList, 0⟩ : Row)
      ∈ [(⟨"youtube".toList, none, "abcdef".toList, 0⟩ : Row)] :=
  ⟨(C9_short_text_filter (.ok [⟨none, some ("abcdef".toList)⟩]) (.ok []) (.ok []) none
      [⟨"youtube".toList, none, "abcdef".toList, 0⟩] (by decide)).1
      ⟨"youtube".toList, none, "abcdef".toList, 0⟩ (by decide),
   (C9_short_text_filter (.ok [⟨none, some ("abcdef".toList)⟩]) (.ok []) (.ok []) none
      [⟨"youtube".toList, none, "abcdef".toList, 0⟩] (by decide)).2
      _ _ rfl rfl ⟨"youtube".toList, none, "abcdef".toList, 0⟩ (by decide) (by decide)⟩

/-! ### Configuration validation claim -/

/-- C8: whenever any required credential variable is unset (or empty),
`validate_config` fails, the reported list contains the name of every
unset variable, and the CLI flow turns that failure into an exit
before the collection continuation — which stands for adapter
construction and all network activity — is ever invoked (the outcome
is `configError` for every possible continuation). -/
theorem C8_config_validation (e : Env) (p : String × Bool)
    (hp : p ∈ credStatus e) (hunset : p.2 = false) :
    p.1 ∈ missingVars e ∧
    validate_config e = .error (missingVars e) ∧
    ∀ (f : Unit → List CollectedRecord),
      mainFlow true e f = .configError (missingVars e) := by
  have hmem : p.1 ∈ missingVars e := by
    simp only [credStatus, List.mem_cons, List.not_mem_nil, or_false] at hp
    rcases hp with rfl | rfl | rfl | rfl | rfl | rfl | rfl | rfl <;>
      simp only at hunset <;>
      simp [missingVars, hunset]
  have hne : missingVars e ≠ [] := List.ne_nil_of_mem hmem
  have hval : validate_config e = .error (missingVars e) := by
    unfold validate_config
    rw [if_neg hne]
  refine ⟨hmem, hval, ?_⟩
  intro f
  unfold mainFlow
  rw [hval]
  simp

/-- Witness for C8: an environment with only the Twitter API secret
unset is rejected with that name in the report. -/
theorem C8_config_validation_witness :
    "TWITTER_API_SECRET" ∈ missingVars
      ⟨some ("yk"), some ("tk"), none, some ("tat"), some ("tas"),
       some ("rc"), some ("rs"), some ("ru")⟩ ∧
    validate_config
      ⟨some ("yk"), some ("tk"), none, some ("tat"), some ("tas"),
       some ("rc"), some ("rs"), some ("ru")⟩
      = .error (missingVars
      ⟨some ("yk"), some ("tk"), none, some ("tat"), some ("tas"),
       some ("rc"), some ("rs"), some ("ru")⟩) ∧
    ∀ (f : Unit → List CollectedRecord),
      mainFlow true
        ⟨some ("yk"), some ("tk"), none, some ("tat"), some ("tas"),
         some ("rc"), some ("rs"), some ("ru")⟩ f
      = .configError (missingVars
        ⟨some ("yk"), some ("tk"), none, some ("tat"), some ("tas"),
         some ("rc"), some ("rs"), some ("ru")⟩) :=
  C8_config_validation
    ⟨some ("yk"), some ("tk"), none, some ("tat"), some ("tas"),
     some ("rc"), some ("rs"), some ("ru")⟩
    ("TWITTER_API_SECRET", false) (by decide) rfl

end TDC
